import Mathlib

/-!
# Verification development for `notify` and its Telegram service

Shallow embedding of `notify.go` (package `notify`) and of
`service/telegram/telegram.go` (package `telegram`).

Conventions of the embedding.

* A Go slice is `Slice α = Option (List α)`: `none` is the `nil` slice, `some l`
  a non-nil slice with elements `l`. Capacity and aliasing of backing arrays are
  left out of this view. `Send` of the Telegram service is embedded a second
  time on a memory of adapter structs and backing arrays (`SendInMemory`,
  `callSend`), where a struct copied by value shares the backing array of its
  slice; the transport acts on the state of the world and holds no reference
  into that memory.
* A `*Notify` is a `Ptr = Option Nat`: `none` is the `nil` pointer, `some a` the
  address `a` of a cell in the heap. The heap is the list of allocated `Notify`
  cells; `&Notify{...}` allocates at the end.
* A Go function value of type `Option` (`func(*Notify)`) is an optional state
  transformer: `none` is the `nil` function value, `some f` a function that
  receives the pointer, returns, and may have changed any dispatcher of the
  heap (it acts on dispatchers only: it does not write to the options slice
  being ranged over). Calling a `nil` function value is a runtime panic, which
  is modelled by `Except Panic`.
* The transport `tgbotapi.BotAPI`, the `context.Context` and `errors.Wrapf` of
  `github.com/pkg/errors` are external to the repository. The transport and the
  context are parameters acting on a state of the world `σ`, which changes only
  during a delivery; `Send` is instrumented with the list of the messages it
  passed to the transport.
* The `Notifier` interface and the method `Send` of the dispatcher are declared
  outside the two files modelled here. The element type of `notifiers` is a
  parameter `ν` in the embedding of `notify.go`; the properties of the
  dispatcher's `Send` are stated on a model of it taken from the specification,
  with `Notifier σ ε` for `ν`.
-/

namespace notify

/-- A Go slice: `none` is the nil slice. -/
abbrev Slice (α : Type) := Option (List α)

/-- The elements of a slice, as ranged over by `for _, x := range s`
(a nil slice has none). -/
def Slice.elems {α : Type} : Slice α → List α
  | none => []
  | some l => l

/-- The runtime panic that the modelled code could raise: the call of a nil
function value. -/
inductive Panic where
  | nilFuncCall
  deriving DecidableEq, Repr

/-- The struct `Notify`: `Disabled bool; notifiers []Notifier`. -/
structure Notify (ν : Type) where
  Disabled : Bool
  notifiers : Slice ν
  deriving DecidableEq, Repr

/-- A `*Notify`: `none` is nil. -/
abbrev Ptr := Option Nat

/-- The allocated `Notify` cells, by address. -/
abbrev Heap (ν : Type) := List (Notify ν)

/-- The body of a non-nil function value of type `Option`. -/
abbrev OptionFn (ν : Type) := Ptr → Heap ν → Heap ν

/-- The Go type `Option = func(*Notify)`; `none` is the nil function value. -/
abbrev NotifyOption (ν : Type) := Option (OptionFn ν)

/-- The assignment `n.Disabled = b` through a non-nil pointer to cell `a`. -/
def setDisabled {ν : Type} (a : Nat) (b : Bool) (h : Heap ν) : Heap ν :=
  match h[a]? with
  | some v => h.set a { v with Disabled := b }
  | none => h

/-- Go: `func Enable(n *Notify) { if n != nil { n.Disabled = false } }`. -/
def Enable {ν : Type} : OptionFn ν := fun n h =>
  match n with
  | some a => setDisabled a false h
  | none => h

/-- Go: `func Disable(n *Notify) { if n != nil { n.Disabled = true } }`. -/
def Disable {ν : Type} : OptionFn ν := fun n h =>
  match n with
  | some a => setDisabled a true h
  | none => h

/-- The call `option(n)` of a function value: calling nil panics. -/
def callOption {ν : Type} (option : NotifyOption ν) (n : Ptr) (h : Heap ν) :
    Except Panic (Heap ν) :=
  match option with
  | some f => .ok (f n h)
  | none => .error .nilFuncCall

/-- The loop of `WithOptions`:
`for _, option := range options { if option != nil { option(n) } }`. -/
def Notify.WithOptions.loop {ν : Type} (n : Ptr) :
    List (NotifyOption ν) → Heap ν → Except Panic (Heap ν)
  | [], h => .ok h
  | option :: rest, h =>
    if option.isSome then
      match callOption option n h with
      | .ok h1 => Notify.WithOptions.loop n rest h1
      | .error e => .error e
    else
      Notify.WithOptions.loop n rest h

/-- Go: `func (n *Notify) WithOptions(options ...Option) *Notify`.
Returns the pointer it returns together with the heap after the call. -/
def Notify.WithOptions {ν : Type} (n : Ptr) (options : Slice (NotifyOption ν))
    (h : Heap ν) : Except Panic (Ptr × Heap ν) :=
  match options with
  | none => .ok (n, h)
  | some os =>
    match Notify.WithOptions.loop n os h with
    | .ok h1 => .ok (n, h1)
    | .error e => .error e

/-- Go: `func NewWithOptions(options ...Option) *Notify`: allocates
`&Notify{Disabled: false, notifiers: make([]Notifier, 0)}` and applies the
options to it. -/
def NewWithOptions {ν : Type} (options : Slice (NotifyOption ν)) (h : Heap ν) :
    Except Panic (Ptr × Heap ν) :=
  Notify.WithOptions (some h.length) options
    (h ++ [{ Disabled := false, notifiers := some [] }])

/-- Go: `func New() *Notify { return NewWithOptions() }`; a variadic call with
no arguments passes the nil slice. -/
def New {ν : Type} (h : Heap ν) : Except Panic (Ptr × Heap ν) :=
  NewWithOptions none h

/-- The `Notify` a pointer points to, if it points to an allocated cell. -/
def deref {ν : Type} (h : Heap ν) : Ptr → Option (Notify ν)
  | some a => h[a]?
  | none => none

/-- The options a caller draws from the named toggles `Enable`, `Disable` and
the nil option. -/
inductive Toggle where
  | enable
  | disable
  | nil
  deriving DecidableEq, Repr

/-- The `Option` value a toggle stands for. -/
def Toggle.toOption {ν : Type} : Toggle → NotifyOption ν
  | .enable => some Enable
  | .disable => some Disable
  | .nil => none

/-- The last non-nil option of a sequence of toggles, if there is one. -/
def lastNonNil (ts : List Toggle) : Option Toggle :=
  (ts.filter (fun t => t != Toggle.nil)).getLast?

/-- The state after applying the function values `fs` to `n`, one after the
other, in the order of the sequence. -/
def applyAll {ν : Type} (n : Ptr) (fs : List (OptionFn ν)) (h : Heap ν) : Heap ν :=
  fs.foldl (fun h1 f => f n h1) h

end notify

namespace telegram

open notify (Slice Panic)

/-- A Go `error` value: either an error `e` of the environment (a transport or
context error), or the result of `errors.Wrapf(cause, format, args...)` from
`github.com/pkg/errors`, which keeps the wrapped error as its cause and carries
the formatted message. -/
inductive GoError (ε : Type) where
  | base (e : ε)
  | withMessage (cause : GoError ε) (msg : String)
  deriving DecidableEq, Repr

/-- Go: `errors.Wrapf(err, format, args...)` for a non-nil `err`, with `msg` the
formatted message. -/
def Wrapf {ε : Type} (err : GoError ε) (msg : String) : GoError ε :=
  .withMessage err msg

/-- The error wrapped directly by an error (itself when it wraps none). -/
def GoError.unwrap {ε : Type} : GoError ε → GoError ε
  | .base e => .base e
  | .withMessage cause _ => cause

/-- The text of `err.Error()`: a wrapped error prints `msg: cause`. -/
def GoError.Error {ε : Type} (text : ε → String) : GoError ε → String
  | .base e => text e
  | .withMessage cause msg => msg ++ ": " ++ GoError.Error text cause

/-- The type `ParseMode string`. -/
abbrev ParseMode := String

/-- Go: `HTML ParseMode = tgbotapi.ModeHTML`. -/
def HTML : ParseMode := "HTML"

/-- Go: `Markdown ParseMode = tgbotapi.ModeMarkdown`. -/
def Markdown : ParseMode := "Markdown"

/-- The fields of `tgbotapi.MessageConfig` that `Send` sets: the destination
chat, the text and the parse mode. -/
structure MessageConfig where
  ChatID : Int
  Text : String
  ParseMode : String
  deriving DecidableEq, Repr

/-- Go: `tgbotapi.NewMessage(chatID, text)`; the parse mode starts empty. -/
def NewMessage (chatID : Int) (text : String) : MessageConfig :=
  { ChatID := chatID, Text := text, ParseMode := "" }

/-- The transport `*tgbotapi.BotAPI`, of which only `Send` is used. A delivery
takes the message and the state of the world `σ`, and yields the error it
returns (`none` for nil) and the next state of the world. -/
structure BotAPI (σ ε : Type) where
  Send : MessageConfig → σ → Option (GoError ε) × σ

/-- A `context.Context`, observed in a state of the world: `Done w` tells
whether a receive from `ctx.Done()` is ready, `Err w` is `ctx.Err()`. -/
structure Context (σ ε : Type) where
  Done : σ → Bool
  Err : σ → Option (GoError ε)

/-- The struct `Telegram`: `client`, `chatIDs []int64`, `parseMode`. -/
structure Telegram (σ ε : Type) where
  client : BotAPI σ ε
  chatIDs : Slice Int
  parseMode : ParseMode

/-- The type `Opt func(t *Telegram)`; `none` is the nil function value. -/
abbrev Opt (σ ε : Type) := Option (Telegram σ ε → Telegram σ ε)

/-- Go: `func WithParseMode(parseMode ParseMode) Opt`. -/
def WithParseMode {σ ε : Type} (parseMode : ParseMode) : Opt σ ε :=
  some (fun t => { t with parseMode := parseMode })

/-- The loop of `New`: `for _, opt := range opts { opt(t) }`; calling a nil
function value panics. -/
def New.loop {σ ε : Type} : List (Opt σ ε) → Telegram σ ε → Except Panic (Telegram σ ε)
  | [], t => .ok t
  | none :: _, _ => .error .nilFuncCall
  | some opt :: rest, t => New.loop rest (opt t)

/-- Go: `func New(apiToken string, opts ...Opt) (*Telegram, error)`, with the
external constructor `tgbotapi.NewBotAPI` as a parameter. The inner result is
the adapter, or the construction error. -/
def New {σ ε : Type} (NewBotAPI : String → Except (GoError ε) (BotAPI σ ε))
    (apiToken : String) (opts : Slice (Opt σ ε)) :
    Except Panic (Except (GoError ε) (Telegram σ ε)) :=
  match NewBotAPI apiToken with
  | .error err => .ok (.error err)
  | .ok client =>
    match New.loop opts.elems { client := client, chatIDs := some [], parseMode := HTML } with
    | .ok t => .ok (.ok t)
    | .error p => .error p

/-- Go: `append(s, xs...)`, up to capacity: appending no element returns `s`
itself (nil stays nil), otherwise the result is non-nil. -/
def append {α : Type} (s xs : Slice α) : Slice α :=
  match xs.elems with
  | [] => s
  | x :: rest => some (s.elems ++ x :: rest)

/-- Go: `func (t *Telegram) AddReceivers(chatIDs ...int64)`, on the adapter the
receiver points to. -/
def Telegram.AddReceivers {σ ε : Type} (t : Telegram σ ε) (chatIDs : Slice Int) :
    Telegram σ ε :=
  { t with chatIDs := append t.chatIDs chatIDs }

/-- The message of `errors.Wrapf(err, "failed to send message to Telegram chat
%d (quoted)", chatID)`. -/
def sendFailureMessage (chatID : Int) : String :=
  "failed to send message to Telegram chat \x27" ++ toString chatID ++ "\x27"

/-- What a call of `Send` did: the error it returned (`none` for nil), the
messages it passed to `client.Send`, in order, and the final state of the
world. -/
structure SendResult (σ ε : Type) where
  err : Option (GoError ε)
  sent : List MessageConfig
  world : σ

/-- The assignment `msg.ChatID = chatID`. -/
def MessageConfig.withChat (msg : MessageConfig) (chatID : Int) : MessageConfig :=
  { msg with ChatID := chatID }

/-- The loop of `Send` over `t.chatIDs`, with the current value of `msg`:
`select` takes the `ctx.Done()` case when a receive from it is ready, and the
default case otherwise. -/
def Telegram.Send.loop {σ ε : Type} (t : Telegram σ ε) (ctx : Context σ ε) :
    List Int → MessageConfig → σ → SendResult σ ε
  | [], _, w => { err := none, sent := [], world := w }
  | chatID :: rest, msg, w =>
    if ctx.Done w then
      { err := ctx.Err w, sent := [], world := w }
    else
      let msg1 := msg.withChat chatID
      let r := t.client.Send msg1 w
      match r.1 with
      | some err =>
        { err := some (Wrapf err (sendFailureMessage chatID)), sent := [msg1], world := r.2 }
      | none =>
        let res := Telegram.Send.loop t ctx rest msg1 r.2
        { res with sent := msg1 :: res.sent }

/-- Go: `func (t Telegram) Send(ctx context.Context, subject, message string) error`. -/
def Telegram.Send {σ ε : Type} (t : Telegram σ ε) (ctx : Context σ ε)
    (subject message : String) (w : σ) : SendResult σ ε :=
  let fullMessage := subject ++ "\n" ++ message
  let msg := { NewMessage 0 fullMessage with ParseMode := t.parseMode }
  Telegram.Send.loop t ctx t.chatIDs.elems msg w

/-- The rendered message for one destination, in the words of the
specification: the subject as the leading line of the text, the configured
parse mode, and the chat ID as destination. -/
def Telegram.messageFor {σ ε : Type} (t : Telegram σ ε) (subject message : String)
    (chatID : Int) : MessageConfig :=
  { ChatID := chatID, Text := subject ++ "\n" ++ message, ParseMode := t.parseMode }

/-- An example transport, on a world that counts the deliveries performed: the
third delivery fails with the error "boom", the others succeed. -/
def exampleClient : BotAPI Nat String where
  Send := fun _ w => (if w = 2 then some (.base "boom") else none, w + 1)

/-- An example context that is never cancelled. -/
def exampleBackground : Context Nat String where
  Done := fun _ => false
  Err := fun _ => none

/-- An example context that is cancelled once the first delivery was made. -/
def exampleCancelled : Context Nat String where
  Done := fun w => decide (1 ≤ w)
  Err := fun w => if 1 ≤ w then some (.base "context canceled") else none

/-- The state of the world after the transport alone has performed the
deliveries `msgs`, in order, from the state `w`. -/
def BotAPI.worldAfter {σ ε : Type} (api : BotAPI σ ε) (msgs : List MessageConfig) (w : σ) : σ :=
  msgs.foldl (fun w1 m => (api.Send m w1).2) w

/-- An example context that is cancelled from the start. -/
def exampleDone : Context Nat String where
  Done := fun _ => true
  Err := fun _ => some (.base "context canceled")

/-- The parse mode named by the last of a sequence of `WithParseMode` options,
and `HTML` when the sequence is empty. -/
def lastParseMode (modes : List ParseMode) : ParseMode :=
  modes.getLast?.getD HTML

/-- A non-nil value of type `[]int64` as it is stored in a struct: the address
of its backing array and its length. The capacity is not read by `Send`. -/
structure SliceHeader where
  array : Nat
  len : Nat
  deriving DecidableEq, Repr

/-- The struct `Telegram` as it is stored in memory: the field `chatIDs` holds
a slice header, `none` for the nil slice. -/
structure TelegramRecord (σ ε : Type) where
  client : BotAPI σ ε
  chatIDs : Option SliceHeader
  parseMode : ParseMode

/-- The memory that holds adapters: the `Telegram` structs, by address, and the
backing arrays of their chat-ID slices, by address. A struct copied by value
shares the backing array of its slice with the original. -/
structure Memory (σ ε : Type) where
  records : List (TelegramRecord σ ε)
  arrays : List (List Int)

/-- The read of the element `i` of the backing array at `array`; `none` is the
runtime panic of an index out of range. -/
def Memory.index {σ ε : Type} (mem : Memory σ ε) (array i : Nat) : Option Int :=
  match mem.arrays[array]? with
  | some elements => elements[i]?
  | none => none

/-- The adapter held at the address `p`, as a value: its chat-ID list is the
first `len` elements of the backing array of its slice. -/
def Memory.adapterAt {σ ε : Type} (mem : Memory σ ε) (p : Nat) : Option (Telegram σ ε) :=
  match mem.records[p]? with
  | none => none
  | some record =>
    match record.chatIDs with
    | none => some { client := record.client, chatIDs := none, parseMode := record.parseMode }
    | some header =>
      match mem.arrays[header.array]? with
      | none => none
      | some elements =>
        if header.len ≤ elements.length then
          some { client := record.client, chatIDs := some (elements.take header.len),
                 parseMode := record.parseMode }
        else none

/-- The loop of `Send` run on memory, for a receiver copy whose `chatIDs` is the
slice `header`: `range` has evaluated the slice once and reads the element `i`
from the shared backing array at each turn, `remaining` turns being left. Each
turn yields the memory it leaves; `none` is a runtime panic. -/
def SendInMemory.loop {σ ε : Type} (client : BotAPI σ ε) (ctx : Context σ ε)
    (header : SliceHeader) :
    Nat → Nat → MessageConfig → Memory σ ε → σ → Option (SendResult σ ε × Memory σ ε)
  | 0, _, _, mem, w => some ({ err := none, sent := [], world := w }, mem)
  | remaining + 1, i, msg, mem, w =>
    match mem.index header.array i with
    | none => none
    | some chatID =>
      if ctx.Done w then
        some ({ err := ctx.Err w, sent := [], world := w }, mem)
      else
        let msg1 := msg.withChat chatID
        let r := client.Send msg1 w
        match r.1 with
        | some err =>
          some ({ err := some (Wrapf err (sendFailureMessage chatID)), sent := [msg1],
                  world := r.2 }, mem)
        | none =>
          match SendInMemory.loop client ctx header remaining (i + 1) msg1 mem r.2 with
          | none => none
          | some (res, mem1) => some ({ res with sent := msg1 :: res.sent }, mem1)

/-- The body of `func (t Telegram) Send(...)` run on memory, where `t` is the
receiver copy: its fields are read, and nothing is assigned through them. -/
def SendInMemory {σ ε : Type} (t : TelegramRecord σ ε) (ctx : Context σ ε)
    (subject message : String) (mem : Memory σ ε) (w : σ) :
    Option (SendResult σ ε × Memory σ ε) :=
  let fullMessage := subject ++ "\n" ++ message
  let msg := { NewMessage 0 fullMessage with ParseMode := t.parseMode }
  match t.chatIDs with
  | none => some ({ err := none, sent := [], world := w }, mem)
  | some header => SendInMemory.loop t.client ctx header header.len 0 msg mem w

/-- The call `t.Send(ctx, subject, message)` on the adapter at the address `p`:
the method has a value receiver, so the struct at `p` is copied and the body
runs on the copy. -/
def callSend {σ ε : Type} (p : Nat) (ctx : Context σ ε) (subject message : String)
    (mem : Memory σ ε) (w : σ) : Option (SendResult σ ε × Memory σ ε) :=
  match mem.records[p]? with
  | none => none
  | some record => SendInMemory record ctx subject message mem w

end telegram

namespace notify

open telegram (GoError Context Wrapf)

/-- The package-level variables of `notify.go` that hold a dispatcher:
`var std`. -/
structure Package where
  std : Ptr
  deriving DecidableEq, Repr

/-- Package initialisation, Go: `var std = New()`. -/
def initPackage {ν : Type} (h : Heap ν) : Except Panic (Package × Heap ν) :=
  match New h with
  | .ok (p, h1) => .ok ({ std := p }, h1)
  | .error e => .error e

/-- Go: `func Default() *Notify { return std }`; the call reads the variable
and leaves the heap as it is. -/
def Default {ν : Type} (pkg : Package) (h : Heap ν) : Ptr × Heap ν :=
  (pkg.std, h)

/-- Modelled from the spec: the `Notifier` interface, which is declared outside
`notify.go`. A service adapter is an opaque capability
`Send(context, subject, message) -> error`; it acts on the state of the world
`σ` and yields the error it returns (`none` for success). -/
structure Notifier (σ ε : Type) where
  Send : Context σ ε → String → String → σ → Option (GoError ε) × σ

/-- What a call of the dispatcher's `Send` did: the error it returned (`none`
for success), the adapters it invoked, by their position in registration order
from 0 on, and the final state of the world. -/
structure DispatchResult (σ ε : Type) where
  err : Option (GoError ε)
  invoked : List Nat
  world : σ

/-- Modelled from the spec: the fan-out of the dispatcher's `Send`, which is
defined outside `notify.go` (steps 2 to 4 of section 4.1). The adapters are
iterated in registration order; before each one the context is checked, and if
it is cancelled the iteration stops with the context's error; an adapter that
fails stops the iteration, and its error is returned wrapped with the context
`label i` that identifies the failing adapter by its position `i`; when every
adapter succeeds, or there is none, the result is success. -/
def Notify.Send.loop {σ ε : Type} (label : Nat → String) (ctx : Context σ ε)
    (subject message : String) : Nat → List (Notifier σ ε) → σ → DispatchResult σ ε
  | _, [], w => { err := none, invoked := [], world := w }
  | i, adapter :: rest, w =>
    if ctx.Done w then
      { err := ctx.Err w, invoked := [], world := w }
    else
      let r := adapter.Send ctx subject message w
      match r.1 with
      | some err => { err := some (Wrapf err (label i)), invoked := [i], world := r.2 }
      | none =>
        let res := Notify.Send.loop label ctx subject message (i + 1) rest r.2
        { res with invoked := i :: res.invoked }

/-- Modelled from the spec: `Send` of the dispatcher, which is defined outside
`notify.go` (section 4.1): if the dispatcher is not enabled it returns success
at once and invokes no adapter; otherwise it fans out to its adapters. -/
def Notify.Send {σ ε : Type} (label : Nat → String) (n : Notify (Notifier σ ε))
    (ctx : Context σ ε) (subject message : String) (w : σ) : DispatchResult σ ε :=
  if n.Disabled then
    { err := none, invoked := [], world := w }
  else
    Notify.Send.loop label ctx subject message 0 n.notifiers.elems w

/-- The state of the world after the adapters `adapters` alone were invoked, in
order, from the state `w`. -/
def adaptersWorldAfter {σ ε : Type} (ctx : Context σ ε) (subject message : String)
    (adapters : List (Notifier σ ε)) (w : σ) : σ :=
  adapters.foldl (fun w1 a => (a.Send ctx subject message w1).2) w

/-- An example adapter that succeeds and counts its call in the world. -/
def exampleAdapterA : Notifier Nat String where
  Send := fun _ _ _ w => (none, w + 1)

/-- An example adapter that fails with the error "boom" and counts its call in
the world. -/
def exampleAdapterB : Notifier Nat String where
  Send := fun _ _ _ w => (some (.base "boom"), w + 1)

/-- An example of the identifying context of a failing adapter. -/
def exampleLabel (i : Nat) : String :=
  "failed to send through adapter " ++ toString i

end notify

namespace notify

theorem setDisabled_get {ν : Type} (a : Nat) (b : Bool) (h : Heap ν) (v : Notify ν)
    (hv : h[a]? = some v) :
    (setDisabled a b h)[a]? = some { v with Disabled := b } := by
  have hlt : a < h.length := by
    rcases Nat.lt_or_ge a h.length with hl | hl
    · exact hl
    · rw [List.getElem?_eq_none hl] at hv
      cases hv
  simp [setDisabled, hv, List.getElem?_set, hlt]

theorem setDisabled_eq_set {ν : Type} (a : Nat) (b : Bool) (h : Heap ν) (v : Notify ν)
    (hv : h[a]? = some v) :
    setDisabled a b h = h.set a { v with Disabled := b } := by
  simp [setDisabled, hv]

theorem setDisabled_unallocated {ν : Type} (a : Nat) (b : Bool) (h : Heap ν)
    (hv : h[a]? = none) : setDisabled a b h = h := by
  simp [setDisabled, hv]

theorem setDisabled_setDisabled {ν : Type} (a : Nat) (b c : Bool) (h : Heap ν) :
    setDisabled a b (setDisabled a c h) = setDisabled a b h := by
  cases hv : h[a]? with
  | none => rw [setDisabled_unallocated a c h hv]
  | some v =>
    rw [setDisabled_eq_set a b _ _ (setDisabled_get a c h v hv), setDisabled_eq_set a c h v hv,
      setDisabled_eq_set a b h v hv]
    simp [List.set_set]

/-- The loop of `WithOptions` never panics: it skips the nil entries and leaves
the heap in the state reached by applying the non-nil entries in order. -/
theorem WithOptions_loop_eq {ν : Type} (n : Ptr) (os : List (NotifyOption ν)) (h : Heap ν) :
    Notify.WithOptions.loop n os h = .ok (applyAll n (os.filterMap id) h) := by
  induction os generalizing h with
  | nil => rfl
  | cons option rest ih =>
    cases option with
    | none => simpa [Notify.WithOptions.loop] using ih h
    | some f => simpa [Notify.WithOptions.loop, callOption, applyAll] using ih (f n h)

theorem WithOptions_eq {ν : Type} (n : Ptr) (options : Slice (NotifyOption ν)) (h : Heap ν) :
    Notify.WithOptions n options h = .ok (n, applyAll n (options.elems.filterMap id) h) := by
  cases options with
  | none => rfl
  | some os => simp [Notify.WithOptions, WithOptions_loop_eq, Slice.elems]

theorem lastNonNil_cons (t : Toggle) (ts : List Toggle) :
    lastNonNil (t :: ts) = (lastNonNil ts).or (lastNonNil [t]) := by
  have h : t :: ts = [t] ++ ts := rfl
  rw [h]
  unfold lastNonNil
  rw [List.filter_append, List.getLast?_append]

theorem lastNonNil_ne_nil (ts : List Toggle) : lastNonNil ts ≠ some Toggle.nil := by
  intro hl
  have hm := List.mem_of_getLast?_eq_some hl
  simp at hm

/-- The heap after a sequence of toggles was applied to the cell `a`, in terms
of the last non-nil toggle. -/
theorem applyAll_toggles {ν : Type} (a : Nat) (ts : List Toggle) (h : Heap ν) :
    applyAll (some a) ((ts.map Toggle.toOption).filterMap id) h =
      match lastNonNil ts with
      | some .enable => setDisabled a false h
      | some .disable => setDisabled a true h
      | _ => h := by
  induction ts generalizing h with
  | nil => rfl
  | cons t rest ih =>
    rw [lastNonNil_cons]
    cases t with
    | nil =>
      have h1 : applyAll (some a) ((List.map Toggle.toOption (Toggle.nil :: rest)).filterMap id) h
          = applyAll (some a) ((List.map Toggle.toOption rest).filterMap id) h := by
        simp [Toggle.toOption]
      rw [h1, ih h]
      have h2 : lastNonNil [Toggle.nil] = none := by decide
      rw [h2]
      cases lastNonNil rest <;> rfl
    | enable =>
      have h1 : applyAll (some a) ((List.map Toggle.toOption (Toggle.enable :: rest)).filterMap id) h
          = applyAll (some a) ((List.map Toggle.toOption rest).filterMap id)
              (setDisabled a false h) := by
        simp [Toggle.toOption, applyAll, Enable]
      rw [h1, ih]
      have h2 : lastNonNil [Toggle.enable] = some Toggle.enable := by decide
      rw [h2]
      cases hl : lastNonNil rest with
      | none => rfl
      | some u =>
        cases u with
        | nil => exact absurd hl (lastNonNil_ne_nil rest)
        | enable => simp [Option.or, setDisabled_setDisabled]
        | disable => simp [Option.or, setDisabled_setDisabled]
    | disable =>
      have h1 : applyAll (some a) ((List.map Toggle.toOption (Toggle.disable :: rest)).filterMap id) h
          = applyAll (some a) ((List.map Toggle.toOption rest).filterMap id)
              (setDisabled a true h) := by
        simp [Toggle.toOption, applyAll, Disable]
      rw [h1, ih]
      have h2 : lastNonNil [Toggle.disable] = some Toggle.disable := by decide
      rw [h2]
      cases hl : lastNonNil rest with
      | none => rfl
      | some u =>
        cases u with
        | nil => exact absurd hl (lastNonNil_ne_nil rest)
        | enable => simp [Option.or, setDisabled_setDisabled]
        | disable => simp [Option.or, setDisabled_setDisabled]

/-- The flag of the cell `a` after a sequence of toggles was applied to it. -/
theorem toggles_flag {ν : Type} (a : Nat) (ts : List Toggle) (h : Heap ν) (v : Notify ν)
    (hv : h[a]? = some v) :
    ∃ v1, (applyAll (some a) ((ts.map Toggle.toOption).filterMap id) h)[a]? = some v1 ∧
      v1.notifiers = v.notifiers ∧
      (∀ t, lastNonNil ts = some t → (v1.Disabled = false ↔ t = Toggle.enable)) ∧
      (lastNonNil ts = none → v1.Disabled = v.Disabled) := by
  have hnil := lastNonNil_ne_nil ts
  rw [applyAll_toggles]
  cases hl : lastNonNil ts with
  | none => exact ⟨v, hv, rfl, by simp, fun _ => rfl⟩
  | some t =>
    cases t with
    | nil => exact absurd hl hnil
    | enable => exact ⟨_, setDisabled_get a false h v hv, rfl, by simp, by simp⟩
    | disable => exact ⟨_, setDisabled_get a true h v hv, rfl, by simp, by simp⟩

/-- Claim C1 (last applied wins). For a dispatcher at address `a` and a
sequence of options drawn from `Enable`, `Disable` and nil (passed as a nil or
non-nil slice), `WithOptions` returns normally, and afterwards the dispatcher is
enabled iff the last non-nil option of the sequence is `Enable`; with no non-nil
option the flag keeps its previous value. `NewWithOptions` does the same on a
fresh dispatcher, whose previous value is enabled. In particular `Disable` then
`Enable` leaves the dispatcher enabled, as options of one call or applied
directly. -/
theorem C1_last_applied_wins {ν : Type} (h : Heap ν) (a : Nat) (v : Notify ν)
    (hv : h[a]? = some v) (opts : Slice Toggle) :
    (∃ h1 v1, Notify.WithOptions (some a) (opts.map (List.map Toggle.toOption)) h
          = .ok (some a, h1) ∧
        deref h1 (some a) = some v1 ∧
        (∀ t, lastNonNil opts.elems = some t → (v1.Disabled = false ↔ t = Toggle.enable)) ∧
        (lastNonNil opts.elems = none → v1.Disabled = v.Disabled)) ∧
    (∃ p h1 v1, NewWithOptions (opts.map (List.map Toggle.toOption)) h = .ok (p, h1) ∧
        deref h1 p = some v1 ∧
        (∀ t, lastNonNil opts.elems = some t → (v1.Disabled = false ↔ t = Toggle.enable)) ∧
        (lastNonNil opts.elems = none → v1.Disabled = false)) ∧
    (∃ h1 v1, Notify.WithOptions (some a) (some [some Disable, some Enable]) h
          = .ok (some a, h1) ∧
        deref h1 (some a) = some v1 ∧ v1.Disabled = false) ∧
    (∃ v1, deref (Enable (some a) (Disable (some a) h)) (some a) = some v1 ∧
        v1.Disabled = false) := by
  have hel : ∀ o : Slice Toggle,
      Slice.elems (Option.map (List.map (Toggle.toOption : Toggle → NotifyOption ν)) o)
        = o.elems.map Toggle.toOption := by
    intro o
    cases o <;> rfl
  refine ⟨?_, ?_, ?_, ?_⟩
  · obtain ⟨v1, h1, _, h2, h3⟩ := toggles_flag a opts.elems h v hv
    exact ⟨_, v1, by rw [WithOptions_eq, hel], h1, h2, h3⟩
  · have hv0 : (h ++ [({ Disabled := false, notifiers := some [] } : Notify ν)])[h.length]?
        = some { Disabled := false, notifiers := some [] } := by simp
    obtain ⟨v1, h1, _, h2, h3⟩ := toggles_flag h.length opts.elems _ _ hv0
    exact ⟨some h.length, _, v1, by rw [NewWithOptions, WithOptions_eq, hel], h1, h2, h3⟩
  · obtain ⟨v1, h1, _, h2, _⟩ :=
      toggles_flag a [Toggle.disable, Toggle.enable] h v hv
    exact ⟨_, v1, by rw [WithOptions_eq]; rfl, h1, (h2 Toggle.enable (by decide)).mpr rfl⟩
  · refine ⟨{ v with Disabled := false }, ?_, rfl⟩
    show (setDisabled a false (setDisabled a true h))[a]? = _
    rw [setDisabled_setDisabled]
    exact setDisabled_get a false h v hv

/-- Witness of claim C1 on a disabled dispatcher at address 0, with the options
`Disable`, nil, `Enable`: it ends enabled. -/
theorem C1_last_applied_wins_witness :
    ∃ h1 v1, Notify.WithOptions (some 0) (some [some Disable, none, some Enable])
        ([{ Disabled := true, notifiers := none }] : Heap Nat) = .ok (some 0, h1) ∧
      deref h1 (some 0) = some v1 ∧ v1.Disabled = false := by
  obtain ⟨⟨h1, v1, e1, e2, e3, _⟩, _⟩ :=
    @C1_last_applied_wins Nat [{ Disabled := true, notifiers := none }] 0
      { Disabled := true, notifiers := none } rfl
      (some [Toggle.disable, Toggle.nil, Toggle.enable])
  exact ⟨h1, v1, e1, e2, (e3 Toggle.enable (by decide)).mpr rfl⟩

/-- Claim C2 (construction without options). `New()`, `NewWithOptions()` and
`NewWithOptions` with an empty option list return normally a pointer to a fresh
dispatcher that is enabled (`Disabled` is false) and whose adapter sequence is
non-nil and of length 0; the dispatchers allocated before are left as they
were. -/
theorem C2_New_defaults {ν : Type} (h : Heap ν) :
    (New h = .ok (some h.length, h ++ [{ Disabled := false, notifiers := some [] }]) ∧
      NewWithOptions none h
        = .ok (some h.length, h ++ [{ Disabled := false, notifiers := some [] }]) ∧
      NewWithOptions (some []) h
        = .ok (some h.length, h ++ [{ Disabled := false, notifiers := some [] }])) ∧
    ∃ v l, deref (h ++ [{ Disabled := false, notifiers := some [] }]) (some h.length) = some v ∧
      v.Disabled = false ∧ v.notifiers = some l ∧ l.length = 0 :=
  ⟨⟨rfl, rfl, rfl⟩, { Disabled := false, notifiers := some [] }, [], by simp [deref], rfl, rfl,
    rfl⟩

/-- Claim C3 (nil options are ignored). For every receiver `n`, every slice of
option functions `options`, with nil entries or not, and every slice `stripped`
holding the non-nil entries of `options` in their order: `WithOptions` returns
normally, and leaves the same state as `WithOptions` on `stripped`; the same
holds for `NewWithOptions`. -/
theorem C3_nil_options_ignored {ν : Type} (n : Ptr) (options stripped : Slice (NotifyOption ν))
    (h : Heap ν) (hs : stripped.elems = options.elems.filter Option.isSome) :
    (∃ h1, Notify.WithOptions n options h = .ok (n, h1) ∧
        Notify.WithOptions n stripped h = .ok (n, h1)) ∧
    (∃ p h1, NewWithOptions options h = .ok (p, h1) ∧
        NewWithOptions stripped h = .ok (p, h1)) := by
  have hf : stripped.elems.filterMap id = options.elems.filterMap id := by
    rw [hs]
    generalize options.elems = l
    induction l with
    | nil => rfl
    | cons o rest ih => cases o <;> simp [List.filter_cons, ih]
  refine ⟨⟨_, WithOptions_eq n options h, ?_⟩, ⟨_, _, WithOptions_eq _ options _, ?_⟩⟩
  · rw [WithOptions_eq, hf]
  · rw [NewWithOptions, WithOptions_eq, hf]

/-- Witness of claim C3: the options nil, `Disable`, nil against the single
option `Disable`. -/
theorem C3_nil_options_ignored_witness :
    ∃ h1, Notify.WithOptions (some 0) (some [none, some Disable, none])
        ([{ Disabled := false, notifiers := some [] }] : Heap Nat) = .ok (some 0, h1) ∧
      Notify.WithOptions (some 0) (some [some Disable])
        ([{ Disabled := false, notifiers := some [] }] : Heap Nat) = .ok (some 0, h1) :=
  (@C3_nil_options_ignored Nat (some 0) (some [none, some Disable, none]) (some [some Disable])
    [{ Disabled := false, notifiers := some [] }] rfl).1

/-- Claim C4 (`WithOptions` returns its receiver). For every receiver `n`,
`WithOptions` returns normally the pointer `n` itself, with the state reached
by applying the non-nil options in order; with a nil or an empty options slice
the state, and with it the enabled flag and the adapter sequence of every
dispatcher, is returned unchanged. -/
theorem C4_WithOptions_returns_receiver {ν : Type} (n : Ptr)
    (options : Slice (NotifyOption ν)) (h : Heap ν) :
    Notify.WithOptions n options h = .ok (n, applyAll n (options.elems.filterMap id) h) ∧
    Notify.WithOptions n none h = .ok (n, h) ∧
    Notify.WithOptions n (some []) h = .ok (n, h) :=
  ⟨WithOptions_eq n options h, rfl, rfl⟩

/-- Claim C5 (`Enable` and `Disable` set the flag and are idempotent). For a
dispatcher at address `a` in any state `v`, `Enable` leaves it enabled and
`Disable` disabled, changing nothing else, and applying either twice leaves the
same state as applying it once. -/
theorem C5_toggles_idempotent {ν : Type} (a : Nat) (h : Heap ν) (v : Notify ν)
    (hv : h[a]? = some v) :
    Enable (some a) h = h.set a { v with Disabled := false } ∧
    deref (Enable (some a) h) (some a) = some { v with Disabled := false } ∧
    Disable (some a) h = h.set a { v with Disabled := true } ∧
    deref (Disable (some a) h) (some a) = some { v with Disabled := true } ∧
    Enable (some a) (Enable (some a) h) = Enable (some a) h ∧
    Disable (some a) (Disable (some a) h) = Disable (some a) h :=
  ⟨setDisabled_eq_set a false h v hv, setDisabled_get a false h v hv,
    setDisabled_eq_set a true h v hv, setDisabled_get a true h v hv,
    setDisabled_setDisabled a false false h, setDisabled_setDisabled a true true h⟩

/-- Witness of claim C5 on a disabled dispatcher with a nil adapter sequence at
address 1. -/
theorem C5_toggles_idempotent_witness :
    deref (Enable (some 1) ([⟨false, some []⟩, ⟨true, none⟩] : Heap Nat)) (some 1)
        = some ⟨false, none⟩ ∧
      Disable (some 1) (Disable (some 1) ([⟨false, some []⟩, ⟨true, none⟩] : Heap Nat))
        = Disable (some 1) [⟨false, some []⟩, ⟨true, none⟩] :=
  have w := @C5_toggles_idempotent Nat 1 [⟨false, some []⟩, ⟨true, none⟩] ⟨true, none⟩ rfl
  ⟨w.2.1, w.2.2.2.2.2⟩

end notify

namespace telegram

open notify (Slice Panic)

/-- The loop of `Send` reads only the text and the parse mode of `msg`: the
destination is overwritten before each delivery. -/
theorem Send_loop_chat_irrelevant {σ ε : Type} (t : Telegram σ ε) (ctx : Context σ ε)
    (cs : List Int) (msg : MessageConfig) (c0 : Int) (w : σ) :
    Telegram.Send.loop t ctx cs (msg.withChat c0) w = Telegram.Send.loop t ctx cs msg w := by
  cases cs <;> rfl

/-- One turn of the loop when the context is found cancelled. -/
theorem Send_loop_cons_done {σ ε : Type} (t : Telegram σ ε) (ctx : Context σ ε)
    (c : Int) (cs : List Int) (msg : MessageConfig) (w : σ) (hd : ctx.Done w = true) :
    Telegram.Send.loop t ctx (c :: cs) msg w = ⟨ctx.Err w, [], w⟩ := by
  simp [Telegram.Send.loop, hd]

/-- One turn of the loop when the delivery fails. -/
theorem Send_loop_cons_fail {σ ε : Type} (t : Telegram σ ε) (ctx : Context σ ε)
    (c : Int) (cs : List Int) (msg : MessageConfig) (w : σ) (e : GoError ε)
    (hd : ctx.Done w = false) (hs : (t.client.Send (msg.withChat c) w).1 = some e) :
    Telegram.Send.loop t ctx (c :: cs) msg w =
      ⟨some (Wrapf e (sendFailureMessage c)), [msg.withChat c],
        (t.client.Send (msg.withChat c) w).2⟩ := by
  simp [Telegram.Send.loop, hd, hs]

/-- One turn of the loop when the delivery succeeds. -/
theorem Send_loop_cons_ok {σ ε : Type} (t : Telegram σ ε) (ctx : Context σ ε)
    (c : Int) (cs : List Int) (msg : MessageConfig) (w : σ)
    (hd : ctx.Done w = false) (hs : (t.client.Send (msg.withChat c) w).1 = none) :
    Telegram.Send.loop t ctx (c :: cs) msg w =
      ⟨(Telegram.Send.loop t ctx cs msg (t.client.Send (msg.withChat c) w).2).err,
        msg.withChat c :: (Telegram.Send.loop t ctx cs msg (t.client.Send (msg.withChat c) w).2).sent,
        (Telegram.Send.loop t ctx cs msg (t.client.Send (msg.withChat c) w).2).world⟩ := by
  simp [Telegram.Send.loop, hd, hs, Send_loop_chat_irrelevant]

/-- While the context is not cancelled at the checks and the deliveries succeed,
the loop of `Send` delivers to the chat IDs `pre` in order and goes on with the
rest of the list. -/
theorem Send_loop_append {σ ε : Type} (t : Telegram σ ε) (ctx : Context σ ε)
    (pre rest : List Int) (msg : MessageConfig) (w : σ)
    (hdone : ∀ i, i < pre.length →
      ctx.Done (t.client.worldAfter ((pre.take i).map msg.withChat) w) = false)
    (hok : ∀ i c, pre[i]? = some c → (t.client.Send (msg.withChat c)
      (t.client.worldAfter ((pre.take i).map msg.withChat) w)).1 = none) :
    Telegram.Send.loop t ctx (pre ++ rest) msg w =
      ⟨(Telegram.Send.loop t ctx rest msg (t.client.worldAfter (pre.map msg.withChat) w)).err,
        pre.map msg.withChat ++
          (Telegram.Send.loop t ctx rest msg (t.client.worldAfter (pre.map msg.withChat) w)).sent,
        (Telegram.Send.loop t ctx rest msg (t.client.worldAfter (pre.map msg.withChat) w)).world⟩ := by
  induction pre generalizing w with
  | nil => rfl
  | cons c pre ih =>
    have hd0 : ctx.Done w = false := hdone 0 (by simp)
    have hs0 : (t.client.Send (msg.withChat c) w).1 = none := hok 0 c (by simp)
    have ih1 := ih (t.client.Send (msg.withChat c) w).2
      (fun i hi => hdone (i + 1) (by simpa using hi))
      (fun i d hd => hok (i + 1) d (by simpa using hd))
    rw [List.cons_append, Send_loop_cons_ok t ctx c (pre ++ rest) msg w hd0 hs0, ih1]
    rfl

/-- The messages delivered by the loop are the messages for a leading part of
the chat IDs, in order. -/
theorem Send_loop_sent {σ ε : Type} (t : Telegram σ ε) (ctx : Context σ ε)
    (cs : List Int) (msg : MessageConfig) (w : σ) :
    (Telegram.Send.loop t ctx cs msg w).sent =
      (cs.take (Telegram.Send.loop t ctx cs msg w).sent.length).map msg.withChat := by
  induction cs generalizing w with
  | nil => rfl
  | cons c cs ih =>
    cases hd : ctx.Done w with
    | true => rw [Send_loop_cons_done t ctx c cs msg w hd]; rfl
    | false =>
      cases hs : (t.client.Send (msg.withChat c) w).1 with
      | some e => rw [Send_loop_cons_fail t ctx c cs msg w e hd hs]; rfl
      | none =>
        rw [Send_loop_cons_ok t ctx c cs msg w hd hs]
        simp only [List.length_cons, List.take_succ_cons, List.map_cons]
        rw [← ih]

/-- The elements of `append s xs` are those of `s` followed by those of `xs`. -/
theorem append_elems {α : Type} (s xs : Slice α) :
    (append s xs).elems = s.elems ++ xs.elems := by
  unfold append
  cases h : xs.elems with
  | nil => simp
  | cons x rest => rfl

/-- `Send` runs its loop on the registered chat IDs with the rendered message. -/
theorem Send_eq_loop {σ ε : Type} (t : Telegram σ ε) (ctx : Context σ ε)
    (subject message : String) (w : σ) :
    t.Send ctx subject message w =
      Telegram.Send.loop t ctx t.chatIDs.elems (t.messageFor subject message 0) w := rfl

/-- The prefix property of the loop, for the rendered message. -/
theorem Send_loop_append_rendered {σ ε : Type} (t : Telegram σ ε) (ctx : Context σ ε)
    (subject message : String) (pre rest : List Int) (w : σ)
    (hdone : ∀ i, i < pre.length → ctx.Done (t.client.worldAfter
      ((pre.take i).map (t.messageFor subject message)) w) = false)
    (hok : ∀ i c, pre[i]? = some c → (t.client.Send (t.messageFor subject message c)
      (t.client.worldAfter ((pre.take i).map (t.messageFor subject message)) w)).1 = none) :
    Telegram.Send.loop t ctx (pre ++ rest) (t.messageFor subject message 0) w =
      ⟨(Telegram.Send.loop t ctx rest (t.messageFor subject message 0)
          (t.client.worldAfter (pre.map (t.messageFor subject message)) w)).err,
        pre.map (t.messageFor subject message) ++
          (Telegram.Send.loop t ctx rest (t.messageFor subject message 0)
            (t.client.worldAfter (pre.map (t.messageFor subject message)) w)).sent,
        (Telegram.Send.loop t ctx rest (t.messageFor subject message 0)
          (t.client.worldAfter (pre.map (t.messageFor subject message)) w)).world⟩ :=
  Send_loop_append t ctx pre rest (t.messageFor subject message 0) w hdone hok

theorem map_ChatID_messageFor {σ ε : Type} (t : Telegram σ ε) (subject message : String)
    (cs : List Int) :
    (cs.map (t.messageFor subject message)).map MessageConfig.ChatID = cs := by
  rw [List.map_map]
  exact List.map_id _

/-- Claim C6 (adapter fail-fast). Let the chat IDs of the adapter be
`pre ++ ck :: post`, the context never be cancelled, the deliveries to the chat
IDs of `pre` succeed, each in the state of the world left by the deliveries
before it, and the delivery to `ck` fail with the error `e`. Then `Send`
delivers to exactly the chat IDs `pre ++ [ck]`, in that order and each once, so
none of `post` is attempted, and returns the error `Wrapf e msg`, whose cause is
`e` and whose message is "failed to send message to Telegram chat" followed by
the quoted `ck`, and so its text starts with that message. -/
theorem C6_Send_fail_fast {σ ε : Type} (t : Telegram σ ε) (ctx : Context σ ε)
    (subject message : String) (w : σ) (pre post : List Int) (ck : Int) (e : GoError ε)
    (text : ε → String)
    (hcs : t.chatIDs.elems = pre ++ ck :: post)
    (hctx : ∀ w1, ctx.Done w1 = false)
    (hok : ∀ i c, pre[i]? = some c → (t.client.Send (t.messageFor subject message c)
      (t.client.worldAfter ((pre.take i).map (t.messageFor subject message)) w)).1 = none)
    (hfail : (t.client.Send (t.messageFor subject message ck)
      (t.client.worldAfter (pre.map (t.messageFor subject message)) w)).1 = some e) :
    (t.Send ctx subject message w).sent = (pre ++ [ck]).map (t.messageFor subject message) ∧
    (t.Send ctx subject message w).sent.map MessageConfig.ChatID = pre ++ [ck] ∧
    (t.Send ctx subject message w).err = some (Wrapf e
      ("failed to send message to Telegram chat \x27" ++ toString ck ++ "\x27")) ∧
    (∃ err, (t.Send ctx subject message w).err = some err ∧ err.unwrap = e ∧
      err.Error text = "failed to send message to Telegram chat \x27" ++ toString ck ++ "\x27"
        ++ ": " ++ e.Error text) := by
  have hstep : Telegram.Send.loop t ctx (ck :: post) (t.messageFor subject message 0)
      (t.client.worldAfter (pre.map (t.messageFor subject message)) w) = _ :=
    Send_loop_cons_fail t ctx ck post _ _ e (hctx _) hfail
  rw [Send_eq_loop, hcs,
    Send_loop_append_rendered t ctx subject message pre (ck :: post) w (fun i _ => hctx _) hok,
    hstep]
  have hsent : pre.map (t.messageFor subject message) ++ [(t.messageFor subject message 0).withChat ck]
      = (pre ++ [ck]).map (t.messageFor subject message) := by
    rw [List.map_append]
    rfl
  refine ⟨hsent, ?_, rfl, ⟨_, rfl, rfl, rfl⟩⟩
  show (pre.map (t.messageFor subject message) ++
    [(t.messageFor subject message 0).withChat ck]).map MessageConfig.ChatID = pre ++ [ck]
  rw [hsent, map_ChatID_messageFor]

/-- Witness of claim C6: four chat IDs on the example transport, whose third
delivery fails. -/
theorem C6_Send_fail_fast_witness :
    ((⟨exampleClient, some [10, 20, 30, 40], HTML⟩ : Telegram Nat String).Send
        exampleBackground "Subject" "Body" 0).sent.map MessageConfig.ChatID = [10, 20, 30] ∧
      ((⟨exampleClient, some [10, 20, 30, 40], HTML⟩ : Telegram Nat String).Send
        exampleBackground "Subject" "Body" 0).err
        = some (.withMessage (.base "boom") "failed to send message to Telegram chat \x2730\x27") :=
  have w := C6_Send_fail_fast ⟨exampleClient, some [10, 20, 30, 40], HTML⟩ exampleBackground
    "Subject" "Body" 0 [10, 20] [40] 30 (.base "boom") id rfl (fun _ => rfl)
    (fun i c hc => match i, hc with
      | 0, _ => rfl
      | 1, _ => rfl
      | _ + 2, hc => by simp at hc)
    rfl
  ⟨w.2.1, w.2.2.1⟩

/-- Claim C7 (adapter success path and order). If at each check the context is
not cancelled and each delivery succeeds, each in the state of the world left
by the deliveries before it, then `Send` returns nil and the deliveries it
performed are exactly one per registered chat ID, in registration order (none
when no chat ID is registered). -/
theorem C7_Send_success {σ ε : Type} (t : Telegram σ ε) (ctx : Context σ ε)
    (subject message : String) (w : σ)
    (hdone : ∀ i, i < t.chatIDs.elems.length → ctx.Done (t.client.worldAfter
      ((t.chatIDs.elems.take i).map (t.messageFor subject message)) w) = false)
    (hok : ∀ i c, t.chatIDs.elems[i]? = some c → (t.client.Send (t.messageFor subject message c)
      (t.client.worldAfter ((t.chatIDs.elems.take i).map (t.messageFor subject message)) w)).1
        = none) :
    (t.Send ctx subject message w).err = none ∧
    (t.Send ctx subject message w).sent = t.chatIDs.elems.map (t.messageFor subject message) ∧
    (t.Send ctx subject message w).sent.map MessageConfig.ChatID = t.chatIDs.elems := by
  have hrun := Send_loop_append_rendered t ctx subject message t.chatIDs.elems [] w hdone hok
  rw [List.append_nil] at hrun
  rw [Send_eq_loop, hrun]
  have hsent : t.chatIDs.elems.map (t.messageFor subject message) ++ []
      = t.chatIDs.elems.map (t.messageFor subject message) := List.append_nil _
  refine ⟨rfl, hsent, ?_⟩
  show (t.chatIDs.elems.map (t.messageFor subject message) ++ []).map MessageConfig.ChatID
    = t.chatIDs.elems
  rw [hsent, map_ChatID_messageFor]

/-- Witness of claim C7: two chat IDs on the example transport. -/
theorem C7_Send_success_witness :
    ((⟨exampleClient, some [10, 20], Markdown⟩ : Telegram Nat String).Send
        exampleBackground "Subject" "Body" 0).err = none ∧
      ((⟨exampleClient, some [10, 20], Markdown⟩ : Telegram Nat String).Send
        exampleBackground "Subject" "Body" 0).sent.map MessageConfig.ChatID = [10, 20] :=
  have w := C7_Send_success ⟨exampleClient, some [10, 20], Markdown⟩ exampleBackground
    "Subject" "Body" 0 (fun _ _ => rfl)
    (fun i c hc => match i, hc with
      | 0, _ => rfl
      | 1, _ => rfl
      | _ + 2, hc => by simp [Slice.elems] at hc)
  ⟨w.1, w.2.2⟩

/-- Claim C8 (cancellation inside the identifier loop). Let the chat IDs of the
adapter be `pre ++ cj :: post`, the checks before the deliveries to `pre` find
the context not cancelled and these deliveries succeed, and the check before
the delivery to `cj` find the context cancelled. Then `Send` returns exactly
`ctx.Err()` as observed at that check, not wrapped, and has delivered to exactly
the chat IDs `pre`, in order, and to none of `cj :: post`. -/
theorem C8_Send_cancelled_in_loop {σ ε : Type} (t : Telegram σ ε) (ctx : Context σ ε)
    (subject message : String) (w : σ) (pre post : List Int) (cj : Int)
    (hcs : t.chatIDs.elems = pre ++ cj :: post)
    (hdone : ∀ i, i < pre.length → ctx.Done (t.client.worldAfter
      ((pre.take i).map (t.messageFor subject message)) w) = false)
    (hok : ∀ i c, pre[i]? = some c → (t.client.Send (t.messageFor subject message c)
      (t.client.worldAfter ((pre.take i).map (t.messageFor subject message)) w)).1 = none)
    (hcancel : ctx.Done (t.client.worldAfter (pre.map (t.messageFor subject message)) w)
      = true) :
    (t.Send ctx subject message w).err
      = ctx.Err (t.client.worldAfter (pre.map (t.messageFor subject message)) w) ∧
    (t.Send ctx subject message w).sent = pre.map (t.messageFor subject message) ∧
    (t.Send ctx subject message w).sent.map MessageConfig.ChatID = pre := by
  have hstep : Telegram.Send.loop t ctx (cj :: post) (t.messageFor subject message 0)
      (t.client.worldAfter (pre.map (t.messageFor subject message)) w) = _ :=
    Send_loop_cons_done t ctx cj post _ _ hcancel
  rw [Send_eq_loop, hcs,
    Send_loop_append_rendered t ctx subject message pre (cj :: post) w hdone hok, hstep]
  have hsent : pre.map (t.messageFor subject message) ++ []
      = pre.map (t.messageFor subject message) := List.append_nil _
  refine ⟨rfl, hsent, ?_⟩
  show (pre.map (t.messageFor subject message) ++ []).map MessageConfig.ChatID = pre
  rw [hsent, map_ChatID_messageFor]

/-- Witness of claim C8: three chat IDs, with a context that is cancelled
during the first delivery. -/
theorem C8_Send_cancelled_in_loop_witness :
    ((⟨exampleClient, some [10, 20, 30], HTML⟩ : Telegram Nat String).Send
        exampleCancelled "Subject" "Body" 0).err = some (.base "context canceled") ∧
      ((⟨exampleClient, some [10, 20, 30], HTML⟩ : Telegram Nat String).Send
        exampleCancelled "Subject" "Body" 0).sent.map MessageConfig.ChatID = [10] :=
  have w := C8_Send_cancelled_in_loop ⟨exampleClient, some [10, 20, 30], HTML⟩ exampleCancelled
    "Subject" "Body" 0 [10] [30] 20 rfl
    (fun i hi => match i, hi with
      | 0, _ => rfl
      | _ + 1, hi => by simp at hi)
    (fun i c hc => match i, hc with
      | 0, _ => rfl
      | _ + 1, hc => by simp at hc)
    rfl
  ⟨w.1, w.2.2⟩

/-- Claim C9 (uniform rendering). Whatever the transport and the context do,
the deliveries performed by `Send` are, in order, the messages for a leading
part of the registered chat IDs, each with the chat ID being iterated as its
destination, the text `subject`, a newline, `message`, and the parse mode of
the adapter; so text and parse mode are the same for all deliveries of one
call. -/
theorem C9_Send_uniform_rendering {σ ε : Type} (t : Telegram σ ε) (ctx : Context σ ε)
    (subject message : String) (w : σ) :
    (t.Send ctx subject message w).sent =
      (t.chatIDs.elems.take (t.Send ctx subject message w).sent.length).map
        (fun c => { ChatID := c, Text := subject ++ "\n" ++ message,
                    ParseMode := t.parseMode }) ∧
    ∀ m ∈ (t.Send ctx subject message w).sent,
      m.Text = subject ++ "\n" ++ message ∧ m.ParseMode = t.parseMode := by
  have hsent := Send_loop_sent t ctx t.chatIDs.elems
    { NewMessage 0 (subject ++ "\n" ++ message) with ParseMode := t.parseMode } w
  have h1 : (t.Send ctx subject message w).sent =
      (t.chatIDs.elems.take (t.Send ctx subject message w).sent.length).map
        (fun c => { ChatID := c, Text := subject ++ "\n" ++ message,
                    ParseMode := t.parseMode }) := hsent
  refine ⟨h1, ?_⟩
  intro m hm
  rw [h1] at hm
  obtain ⟨c, _, hc⟩ := List.mem_map.mp hm
  subst hc
  exact ⟨rfl, rfl⟩

/-- Claim C10 (`AddReceivers` appends in call order). After `AddReceivers` with
the chat IDs `a` and then with the chat IDs `b`, the chat-ID list of the adapter
is the former list followed by `a` and then by `b`, duplicates included; client
and parse mode are unchanged; and a call with zero chat IDs changes nothing. -/
theorem C10_AddReceivers_appends {σ ε : Type} (t : Telegram σ ε) (a b : Slice Int) :
    ((t.AddReceivers a).AddReceivers b).chatIDs.elems = t.chatIDs.elems ++ a.elems ++ b.elems ∧
    ((t.AddReceivers a).AddReceivers b).client = t.client ∧
    ((t.AddReceivers a).AddReceivers b).parseMode = t.parseMode ∧
    t.AddReceivers none = t ∧ t.AddReceivers (some []) = t := by
  refine ⟨?_, rfl, rfl, rfl, rfl⟩
  simp only [Telegram.AddReceivers, append_elems]

end telegram

namespace notify

open telegram (GoError Context Wrapf)

/-- The elements of a slice of toggles, taken as options. -/
theorem elems_map_toOption {ν : Type} (o : Slice Toggle) :
    Slice.elems (Option.map (List.map (Toggle.toOption : Toggle → NotifyOption ν)) o)
      = o.elems.map Toggle.toOption := by
  cases o <;> rfl

/-- The toggles leave the heap as it is when the receiver is nil. -/
theorem applyAll_toggles_nil {ν : Type} (ts : List Toggle) (h : Heap ν) :
    applyAll none ((ts.map Toggle.toOption).filterMap id) h = h := by
  induction ts with
  | nil => rfl
  | cons t rest ih =>
    cases t with
    | nil => simpa [Toggle.toOption] using ih
    | enable => simpa [Toggle.toOption, applyAll, Enable] using ih
    | disable => simpa [Toggle.toOption, applyAll, Disable] using ih

/-- The non-nil entries of a concatenation are applied one sequence after the
other. -/
theorem applyAll_append {ν : Type} (n : Ptr) (xs ys : List (NotifyOption ν)) (h : Heap ν) :
    applyAll n ((xs ++ ys).filterMap id) h
      = applyAll n (ys.filterMap id) (applyAll n (xs.filterMap id) h) := by
  simp [applyAll, List.filterMap_append, List.foldl_append]

/-- Claim C12 (the process-wide default dispatcher). Package initialisation
returns normally with `std` pointing to the dispatcher `New()` returns; every
call of `Default()`, in whatever state, returns that same pointer and changes
nothing; and the dispatcher it points to is initially enabled, with an adapter
sequence that is non-nil and of length 0. -/
theorem C12_Default_single_instance {ν : Type} (h : Heap ν) :
    ∃ pkg h1, initPackage h = .ok (pkg, h1) ∧ New h = .ok (pkg.std, h1) ∧
      (∀ h2 h3 : Heap ν, (Default pkg h2).1 = pkg.std ∧
        (Default pkg h3).1 = (Default pkg h2).1 ∧ (Default pkg h2).2 = h2) ∧
      ∃ v l, deref h1 (Default pkg h1).1 = some v ∧
        v.Disabled = false ∧ v.notifiers = some l ∧ l.length = 0 :=
  ⟨{ std := some h.length }, h ++ [({ Disabled := false, notifiers := some [] } : Notify ν)],
    rfl, rfl, fun _ _ => ⟨rfl, rfl, rfl⟩,
    { Disabled := false, notifiers := some [] }, [], by simp [deref, Default], rfl, rfl, rfl⟩

/-- Claim C16 (options only adjust the enabled flag). For a dispatcher at
address `a` and options drawn from `Enable`, `Disable` and nil, `WithOptions`
leaves the adapter sequence of the dispatcher as it was: same elements, same
order, same nil-ness. A dispatcher returned by `NewWithOptions` with such
options has an adapter sequence that is non-nil and of length 0. -/
theorem C16_options_keep_adapters {ν : Type} (h : Heap ν) (a : Nat) (v : Notify ν)
    (hv : h[a]? = some v) (opts : Slice Toggle) :
    (∃ h1 v1, Notify.WithOptions (some a) (opts.map (List.map Toggle.toOption)) h
          = .ok (some a, h1) ∧
        deref h1 (some a) = some v1 ∧ v1.notifiers = v.notifiers) ∧
    (∃ p h1 v1 l, NewWithOptions (opts.map (List.map Toggle.toOption)) h = .ok (p, h1) ∧
        deref h1 p = some v1 ∧ v1.notifiers = some l ∧ l.length = 0) := by
  constructor
  · obtain ⟨v1, h1, h2, _, _⟩ := toggles_flag a opts.elems h v hv
    exact ⟨_, v1, by rw [WithOptions_eq, elems_map_toOption], h1, h2⟩
  · have hv0 : (h ++ [({ Disabled := false, notifiers := some [] } : Notify ν)])[h.length]?
        = some { Disabled := false, notifiers := some [] } := by simp
    obtain ⟨v1, h1, h2, _, _⟩ := toggles_flag h.length opts.elems _ _ hv0
    exact ⟨some h.length, _, v1, [], by rw [NewWithOptions, WithOptions_eq, elems_map_toOption],
      h1, h2, rfl⟩

/-- Witness of claim C16: a disabled dispatcher with two adapters, and the
options `Enable`, nil, `Disable`, `Enable`. -/
theorem C16_options_keep_adapters_witness :
    ∃ h1 v1, Notify.WithOptions (some 0)
        (some [some Enable, none, some Disable, some Enable])
        ([{ Disabled := true, notifiers := some [7, 8] }] : Heap Nat) = .ok (some 0, h1) ∧
      deref h1 (some 0) = some v1 ∧ v1.notifiers = some [7, 8] :=
  (@C16_options_keep_adapters Nat [{ Disabled := true, notifiers := some [7, 8] }] 0
    { Disabled := true, notifiers := some [7, 8] } rfl
    (some [Toggle.enable, Toggle.nil, Toggle.disable, Toggle.enable])).1

/-- Claim C17 (chaining composes as concatenation). For every receiver `n`, all
slices of option functions `a` and `b`, nil entries allowed, and every slice
`ab` holding the entries of `a` followed by those of `b`: `WithOptions` with `a`
and then `WithOptions` with `b` on the pointer returned leave the state that
`WithOptions` with `ab` leaves; and `NewWithOptions` with `ab` returns what
`NewWithOptions` with `a` followed by `WithOptions` with `b` returns. -/
theorem C17_chaining_concatenates {ν : Type} (n : Ptr) (a b ab : Slice (NotifyOption ν))
    (h : Heap ν) (hab : ab.elems = a.elems ++ b.elems) :
    (∃ h1 h2, Notify.WithOptions n a h = .ok (n, h1) ∧
        Notify.WithOptions n b h1 = .ok (n, h2) ∧
        Notify.WithOptions n ab h = .ok (n, h2)) ∧
    (∃ p h1 h2, NewWithOptions a h = .ok (p, h1) ∧
        Notify.WithOptions p b h1 = .ok (p, h2) ∧
        NewWithOptions ab h = .ok (p, h2)) := by
  refine ⟨⟨_, _, WithOptions_eq n a h, WithOptions_eq n b _, ?_⟩,
    ⟨_, _, _, WithOptions_eq _ a _, WithOptions_eq _ b _, ?_⟩⟩
  · rw [WithOptions_eq, hab, applyAll_append]
  · rw [NewWithOptions, WithOptions_eq, hab, applyAll_append]

/-- Witness of claim C17: `Disable`, nil chained with nil, `Enable`. -/
theorem C17_chaining_concatenates_witness :
    ∃ h1 h2, Notify.WithOptions (some 0) (some [some Disable, none])
        ([{ Disabled := false, notifiers := some [] }] : Heap Nat) = .ok (some 0, h1) ∧
      Notify.WithOptions (some 0) (some [none, some Enable]) h1 = .ok (some 0, h2) ∧
      Notify.WithOptions (some 0) (some [some Disable, none, none, some Enable])
        ([{ Disabled := false, notifiers := some [] }] : Heap Nat) = .ok (some 0, h2) :=
  (@C17_chaining_concatenates Nat (some 0) (some [some Disable, none])
    (some [none, some Enable]) (some [some Disable, none, none, some Enable])
    [{ Disabled := false, notifiers := some [] }] rfl).1

/-- Claim C18 (nil-receiver safety of the toggles). `Enable(nil)` and
`Disable(nil)` return normally and change nothing; and on a nil receiver, with
options drawn from `Enable`, `Disable` and nil, `WithOptions` returns normally
the nil pointer and changes nothing. -/
theorem C18_nil_receiver_safe {ν : Type} (h : Heap ν) (opts : Slice Toggle) :
    callOption (some Enable) none h = .ok h ∧
    callOption (some Disable) none h = .ok h ∧
    Notify.WithOptions none (opts.map (List.map Toggle.toOption)) h = .ok (none, h) := by
  refine ⟨rfl, rfl, ?_⟩
  rw [WithOptions_eq, elems_map_toOption, applyAll_toggles_nil]

/-- One turn of the fan-out when the context is found cancelled. -/
theorem Notify_Send_loop_cons_done {σ ε : Type} (label : Nat → String) (ctx : Context σ ε)
    (subject message : String) (i : Nat) (a : Notifier σ ε) (rest : List (Notifier σ ε))
    (w : σ) (hd : ctx.Done w = true) :
    Notify.Send.loop label ctx subject message i (a :: rest) w = ⟨ctx.Err w, [], w⟩ := by
  simp [Notify.Send.loop, hd]

/-- One turn of the fan-out when the adapter fails. -/
theorem Notify_Send_loop_cons_fail {σ ε : Type} (label : Nat → String) (ctx : Context σ ε)
    (subject message : String) (i : Nat) (a : Notifier σ ε) (rest : List (Notifier σ ε))
    (w : σ) (e : GoError ε) (hd : ctx.Done w = false)
    (hs : (a.Send ctx subject message w).1 = some e) :
    Notify.Send.loop label ctx subject message i (a :: rest) w =
      ⟨some (Wrapf e (label i)), [i], (a.Send ctx subject message w).2⟩ := by
  simp [Notify.Send.loop, hd, hs]

/-- One turn of the fan-out when the adapter succeeds. -/
theorem Notify_Send_loop_cons_ok {σ ε : Type} (label : Nat → String) (ctx : Context σ ε)
    (subject message : String) (i : Nat) (a : Notifier σ ε) (rest : List (Notifier σ ε))
    (w : σ) (hd : ctx.Done w = false) (hs : (a.Send ctx subject message w).1 = none) :
    Notify.Send.loop label ctx subject message i (a :: rest) w =
      ⟨(Notify.Send.loop label ctx subject message (i + 1) rest
          (a.Send ctx subject message w).2).err,
        i :: (Notify.Send.loop label ctx subject message (i + 1) rest
          (a.Send ctx subject message w).2).invoked,
        (Notify.Send.loop label ctx subject message (i + 1) rest
          (a.Send ctx subject message w).2).world⟩ := by
  simp [Notify.Send.loop, hd, hs]

/-- While the context is not cancelled at the checks and the adapters succeed,
the fan-out invokes the adapters `pre` in order and goes on with the rest. -/
theorem Notify_Send_loop_append {σ ε : Type} (label : Nat → String) (ctx : Context σ ε)
    (subject message : String) (i : Nat) (pre rest : List (Notifier σ ε)) (w : σ)
    (hdone : ∀ j : Nat, j < pre.length →
      ctx.Done (adaptersWorldAfter ctx subject message (pre.take j) w) = false)
    (hok : ∀ (j : Nat) (a : Notifier σ ε), pre[j]? = some a → (a.Send ctx subject message
      (adaptersWorldAfter ctx subject message (pre.take j) w)).1 = none) :
    Notify.Send.loop label ctx subject message i (pre ++ rest) w =
      ⟨(Notify.Send.loop label ctx subject message (i + pre.length) rest
          (adaptersWorldAfter ctx subject message pre w)).err,
        List.range' i pre.length ++
          (Notify.Send.loop label ctx subject message (i + pre.length) rest
            (adaptersWorldAfter ctx subject message pre w)).invoked,
        (Notify.Send.loop label ctx subject message (i + pre.length) rest
          (adaptersWorldAfter ctx subject message pre w)).world⟩ := by
  induction pre generalizing i w with
  | nil => rfl
  | cons a pre ih =>
    have hd0 : ctx.Done w = false := hdone 0 (by simp)
    have hs0 : (a.Send ctx subject message w).1 = none := hok 0 a (by simp)
    have ih1 := ih (i + 1) (a.Send ctx subject message w).2
      (fun j hj => hdone (j + 1) (by simpa using hj))
      (fun j b hb => hok (j + 1) b (by simpa using hb))
    have hidx : i + 1 + pre.length = i + (a :: pre).length := by
      simp only [List.length_cons]
      omega
    rw [hidx] at ih1
    rw [List.cons_append,
      Notify_Send_loop_cons_ok label ctx subject message i a (pre ++ rest) w hd0 hs0, ih1]
    rfl

/-- Claim C13 (global mute). A dispatcher that is not enabled returns success
from `Send`, for every adapter set, context, subject and message, and invokes
no adapter: the list of invoked adapters is empty and the world, in which a
counting adapter would count its calls, is unchanged. In particular a
dispatcher constructed with `Disable` returns success from
`Send(ctx, "Subject", "Body")` with no adapter invoked. -/
theorem C13_Send_global_mute {σ ε : Type} (label : Nat → String)
    (adapters : Slice (Notifier σ ε)) (ctx : Context σ ε) (subject message : String) (w : σ)
    (h : Heap (Notifier σ ε)) :
    ((Notify.Send label { Disabled := true, notifiers := adapters } ctx subject message w).err
        = none ∧
      (Notify.Send label { Disabled := true, notifiers := adapters } ctx subject message w).invoked
        = [] ∧
      (Notify.Send label { Disabled := true, notifiers := adapters } ctx subject message w).world
        = w) ∧
    ∃ p h1 v, NewWithOptions (some [some Disable]) h = .ok (p, h1) ∧ deref h1 p = some v ∧
      (Notify.Send label v ctx "Subject" "Body" w).err = none ∧
      (Notify.Send label v ctx "Subject" "Body" w).invoked = [] ∧
      (Notify.Send label v ctx "Subject" "Body" w).world = w := by
  refine ⟨⟨rfl, rfl, rfl⟩, some h.length,
    h ++ [({ Disabled := true, notifiers := some [] } : Notify (Notifier σ ε))],
    { Disabled := true, notifiers := some [] }, ?_, by simp [deref], rfl, rfl, rfl⟩
  rw [NewWithOptions, WithOptions_eq]
  simp [Slice.elems, applyAll, Disable, setDisabled]

/-- Claim C14 (dispatcher fail-fast). Let the dispatcher be enabled with the
adapters `pre ++ ak :: post`, the context never be cancelled, the adapters of
`pre` succeed, each in the state of the world left by those before it, and the
adapter `ak` fail with the error `e`. Then `Send` invokes the adapters at the
positions `0` to `pre.length`, once each and in registration order, so none of
`post`, and returns the error `e` of `ak` wrapped with the context that
identifies the position of `ak`. -/
theorem C14_Send_fail_fast {σ ε : Type} (label : Nat → String) (n : Notify (Notifier σ ε))
    (ctx : Context σ ε) (subject message : String) (w : σ)
    (pre post : List (Notifier σ ε)) (ak : Notifier σ ε) (e : GoError ε)
    (hen : n.Disabled = false)
    (hns : n.notifiers.elems = pre ++ ak :: post)
    (hctx : ∀ w1, ctx.Done w1 = false)
    (hok : ∀ (j : Nat) (a : Notifier σ ε), pre[j]? = some a → (a.Send ctx subject message
      (adaptersWorldAfter ctx subject message (pre.take j) w)).1 = none)
    (hfail : (ak.Send ctx subject message
      (adaptersWorldAfter ctx subject message pre w)).1 = some e) :
    (Notify.Send label n ctx subject message w).invoked = List.range (pre.length + 1) ∧
    (Notify.Send label n ctx subject message w).err = some (Wrapf e (label pre.length)) ∧
    (∃ err, (Notify.Send label n ctx subject message w).err = some err ∧ err.unwrap = e) := by
  have hstep := Notify_Send_loop_cons_fail label ctx subject message (0 + pre.length) ak post
    (adaptersWorldAfter ctx subject message pre w) e (hctx _) hfail
  have hsend : Notify.Send label n ctx subject message w
      = Notify.Send.loop label ctx subject message 0 (pre ++ ak :: post) w := by
    simp [Notify.Send, hen, hns]
  rw [hsend,
    Notify_Send_loop_append label ctx subject message 0 pre (ak :: post) w (fun j _ => hctx _) hok,
    hstep]
  refine ⟨?_, ?_, ⟨_, rfl, rfl⟩⟩
  · show List.range' 0 pre.length ++ [0 + pre.length] = List.range (pre.length + 1)
    rw [List.range_succ, List.range_eq_range', Nat.zero_add]
  · show some (Wrapf e (label (0 + pre.length))) = some (Wrapf e (label pre.length))
    rw [Nat.zero_add]

/-- Witness of claim C14: the adapters A, B, A on an enabled dispatcher, where A
succeeds and B fails with "boom". -/
theorem C14_Send_fail_fast_witness :
    (Notify.Send exampleLabel
        { Disabled := false, notifiers := some [exampleAdapterA, exampleAdapterB, exampleAdapterA] }
        telegram.exampleBackground "Subject" "Body" 0).invoked = [0, 1] ∧
      (Notify.Send exampleLabel
        { Disabled := false, notifiers := some [exampleAdapterA, exampleAdapterB, exampleAdapterA] }
        telegram.exampleBackground "Subject" "Body" 0).err
        = some (.withMessage (.base "boom") (exampleLabel 1)) :=
  have w := C14_Send_fail_fast exampleLabel
    { Disabled := false, notifiers := some [exampleAdapterA, exampleAdapterB, exampleAdapterA] }
    telegram.exampleBackground "Subject" "Body" 0 [exampleAdapterA] [exampleAdapterA]
    exampleAdapterB (.base "boom") rfl rfl (fun _ => rfl)
    (fun j a hj => match j, hj with
      | 0, hj => by
        simp only [List.getElem?_cons_zero, Option.some.injEq] at hj
        subst hj
        rfl
      | _ + 1, hj => by simp at hj)
    rfl
  ⟨w.1, w.2.1⟩

end notify

namespace telegram

open notify (Slice Panic)

/-- The loop of `New` on `WithParseMode` options returns normally and leaves
the adapter with the parse mode of the last option, if there is one. -/
theorem New_loop_WithParseMode {σ ε : Type} (modes : List ParseMode) (t : Telegram σ ε) :
    New.loop (modes.map WithParseMode) t
      = .ok { t with parseMode := modes.getLast?.getD t.parseMode } := by
  induction modes generalizing t with
  | nil => rfl
  | cons m rest ih =>
    have hstep : New.loop ((m :: rest).map WithParseMode) t
        = New.loop (rest.map WithParseMode) { t with parseMode := m } := rfl
    rw [hstep, ih, List.getLast?_cons]
    rfl

/-- When the context is found cancelled at the first check, `Send` returns at
once. -/
theorem Send_loop_done_first {σ ε : Type} (t : Telegram σ ε) (ctx : Context σ ε)
    (cs : List Int) (msg : MessageConfig) (w : σ) (hd : ctx.Done w = true) :
    (Telegram.Send.loop t ctx cs msg w).sent = [] ∧
    (Telegram.Send.loop t ctx cs msg w).world = w ∧
    (cs ≠ [] → (Telegram.Send.loop t ctx cs msg w).err = ctx.Err w) := by
  cases cs with
  | nil => exact ⟨rfl, rfl, fun hne => absurd rfl hne⟩
  | cons c rest =>
    rw [Send_loop_cons_done t ctx c rest msg w hd]
    exact ⟨rfl, rfl, fun _ => rfl⟩

/-- Claim C11 (formatting mode chosen at construction). When the creation of
the client succeeds, `New` without options (a nil or an empty options slice)
returns an adapter with the parse mode `HTML` and a chat-ID list that is
non-nil and empty. With a sequence of `WithParseMode` options it returns
normally an adapter whose parse mode is the mode of the last option of the
sequence, `HTML` if there is none, and whose chat-ID list is still the
non-nil empty list. -/
theorem C11_New_parse_mode {σ ε : Type} (NewBotAPI : String → Except (GoError ε) (BotAPI σ ε))
    (apiToken : String) (client : BotAPI σ ε) (hc : NewBotAPI apiToken = .ok client)
    (modes : Slice ParseMode) :
    New NewBotAPI apiToken none
      = .ok (.ok { client := client, chatIDs := some [], parseMode := HTML }) ∧
    New NewBotAPI apiToken (some [])
      = .ok (.ok { client := client, chatIDs := some [], parseMode := HTML }) ∧
    New NewBotAPI apiToken (modes.map (List.map WithParseMode))
      = .ok (.ok { client := client, chatIDs := some [],
                   parseMode := lastParseMode modes.elems }) := by
  have hel : Slice.elems (Option.map (List.map (WithParseMode : ParseMode → Opt σ ε)) modes)
      = modes.elems.map WithParseMode := by
    cases modes <;> rfl
  refine ⟨?_, ?_, ?_⟩
  · simp only [New, hc]
    rfl
  · simp only [New, hc]
    rfl
  · simp only [New, hc, hel, New_loop_WithParseMode]
    rfl

/-- Witness of claim C11: the options `Markdown`, `HTML`, `Markdown`. -/
theorem C11_New_parse_mode_witness :
    New (fun _ => (.ok exampleClient : Except (GoError String) (BotAPI Nat String))) "token"
        (some [WithParseMode Markdown, WithParseMode HTML, WithParseMode Markdown])
      = .ok (.ok { client := exampleClient, chatIDs := some [], parseMode := Markdown }) :=
  (C11_New_parse_mode (fun _ => .ok exampleClient) "token" exampleClient rfl
    (some [Markdown, HTML, Markdown])).2.2

/-- Counterexample to claim C15 as stated: on an adapter with no registered
chat ID, `Send` with a context that is already cancelled returns nil, not the
error of the context. -/
theorem C15_counterexample :
    exampleDone.Done 0 = true ∧
    ((⟨exampleClient, some [], HTML⟩ : Telegram Nat String).Send
        exampleDone "Subject" "Body" 0).err = none ∧
    ((⟨exampleClient, some [], HTML⟩ : Telegram Nat String).Send
        exampleDone "Subject" "Body" 0).err ≠ exampleDone.Err 0 :=
  ⟨rfl, rfl, fun h => Option.noConfusion h⟩

/-- Claim C15, amended (cancellation before the call). For every adapter and
every context that is already cancelled when `Send` is called, `Send` makes no
delivery and leaves the world as it is; and when the adapter has at least one
registered chat ID, it returns the error of the context. -/
theorem C15_Send_already_cancelled {σ ε : Type} (t : Telegram σ ε) (ctx : Context σ ε)
    (subject message : String) (w : σ) (hd : ctx.Done w = true) :
    (t.Send ctx subject message w).sent = [] ∧
    (t.Send ctx subject message w).world = w ∧
    (t.chatIDs.elems ≠ [] → (t.Send ctx subject message w).err = ctx.Err w) :=
  Send_loop_done_first t ctx t.chatIDs.elems _ w hd

/-- Witness of claim C15, amended: two chat IDs and a context cancelled from
the start. -/
theorem C15_Send_already_cancelled_witness :
    ((⟨exampleClient, some [10, 20], HTML⟩ : Telegram Nat String).Send
        exampleDone "Subject" "Body" 0).sent = [] ∧
      ((⟨exampleClient, some [10, 20], HTML⟩ : Telegram Nat String).Send
        exampleDone "Subject" "Body" 0).err = some (.base "context canceled") :=
  have w := C15_Send_already_cancelled ⟨exampleClient, some [10, 20], HTML⟩ exampleDone
    "Subject" "Body" 0 rfl
  ⟨w.1, w.2.2 (by simp [Slice.elems])⟩

/-- The loop of `Send` on memory leaves the memory as it is, and does what the
loop on the list of the elements it reads does. -/
theorem SendInMemory_loop_eq {σ ε : Type} (t : Telegram σ ε) (ctx : Context σ ε)
    (header : SliceHeader) (mem : Memory σ ε) (elements : List Int)
    (harr : mem.arrays[header.array]? = some elements)
    (remaining i : Nat) (msg : MessageConfig) (w : σ) (hlen : i + remaining ≤ elements.length) :
    SendInMemory.loop t.client ctx header remaining i msg mem w
      = some (Telegram.Send.loop t ctx ((elements.drop i).take remaining) msg w, mem) := by
  induction remaining generalizing i msg w with
  | zero => simp [SendInMemory.loop, Telegram.Send.loop]
  | succ k ih =>
    have hi : i < elements.length := by omega
    have hread : mem.index header.array i = some elements[i] := by
      simp [Memory.index, harr, List.getElem?_eq_getElem hi]
    have hlist : (elements.drop i).take (k + 1)
        = elements[i] :: (elements.drop (i + 1)).take k := by
      rw [List.drop_eq_getElem_cons hi, List.take_succ_cons]
    rw [hlist]
    cases hd : ctx.Done w with
    | true =>
      rw [Send_loop_cons_done t ctx _ _ msg w hd]
      simp [SendInMemory.loop, hread, hd]
    | false =>
      cases hs : (t.client.Send (msg.withChat elements[i]) w).1 with
      | some e =>
        rw [Send_loop_cons_fail t ctx _ _ msg w e hd hs]
        simp [SendInMemory.loop, hread, hd, hs]
      | none =>
        rw [Send_loop_cons_ok t ctx _ _ msg w hd hs]
        have ih1 := ih (i + 1) (msg.withChat elements[i])
          (t.client.Send (msg.withChat elements[i]) w).2 (by omega)
        rw [Send_loop_chat_irrelevant] at ih1
        simp [SendInMemory.loop, hread, hd, hs, ih1]

/-- A call of `Send` on the adapter at `p` returns what `Send` returns on the
adapter read from memory, and leaves the memory as it is. -/
theorem callSend_eq {σ ε : Type} (mem : Memory σ ε) (p : Nat) (t : Telegram σ ε)
    (ht : mem.adapterAt p = some t) (ctx : Context σ ε) (subject message : String) (w : σ) :
    callSend p ctx subject message mem w = some (t.Send ctx subject message w, mem) := by
  unfold Memory.adapterAt at ht
  unfold callSend
  cases hrec : mem.records[p]? with
  | none => simp [hrec] at ht
  | some record =>
    simp only [hrec] at ht ⊢
    unfold SendInMemory
    cases hc : record.chatIDs with
    | none =>
      simp only [hc, Option.some.injEq] at ht ⊢
      subst ht
      rfl
    | some header =>
      simp only [hc] at ht ⊢
      cases harr : mem.arrays[header.array]? with
      | none => simp [harr] at ht
      | some elements =>
        simp only [harr] at ht
        by_cases hle : header.len ≤ elements.length
        · simp only [hle, if_true, Option.some.injEq] at ht
          subst ht
          have hrun := SendInMemory_loop_eq
            { client := record.client, chatIDs := some (elements.take header.len),
              parseMode := record.parseMode } ctx header mem elements harr header.len 0
            { NewMessage 0 (subject ++ "\n" ++ message) with ParseMode := record.parseMode } w
            (by omega)
          rw [List.drop_zero] at hrun
          exact hrun
        · simp [hle] at ht

/-- Claim C19 (`Send` does not change the adapter). For the adapter held at an
address `p` of the memory, read as the value `t`, and for every context,
subject, message and state of the world, hence whatever the outcome, the call
of `Send` returns normally and leaves a memory in which the adapter at `p` has
the chat-ID list and the parse mode it had before; indeed the whole memory of
adapters and backing arrays is the one before the call. The call returns what
`Send` returns on the value `t`, and so does every later call: a later `Send`
targets the same chat IDs in the same order. -/
theorem C19_Send_keeps_adapter {σ ε : Type} (mem : Memory σ ε) (p : Nat) (t : Telegram σ ε)
    (ht : mem.adapterAt p = some t) (ctx : Context σ ε) (subject message : String) (w : σ) :
    ∃ res mem1, callSend p ctx subject message mem w = some (res, mem1) ∧
      (∃ t1, mem1.adapterAt p = some t1 ∧
        t1.chatIDs = t.chatIDs ∧ t1.parseMode = t.parseMode) ∧
      mem1 = mem ∧
      res = t.Send ctx subject message w ∧
      ∀ (ctx2 : Context σ ε) (subject2 message2 : String) (w2 : σ),
        callSend p ctx2 subject2 message2 mem1 w2
          = some (t.Send ctx2 subject2 message2 w2, mem1) :=
  ⟨t.Send ctx subject message w, mem, callSend_eq mem p t ht ctx subject message w,
    ⟨t, ht, rfl, rfl⟩, rfl, rfl,
    fun ctx2 subject2 message2 w2 => callSend_eq mem p t ht ctx2 subject2 message2 w2⟩

/-- Witness of claim C19: an adapter whose slice holds the first two elements
of a backing array of three, sent to on the example transport. -/
theorem C19_Send_keeps_adapter_witness :
    ∃ res mem1, callSend 0 exampleBackground "Subject" "Body"
        ({ records := [{ client := exampleClient, chatIDs := some { array := 0, len := 2 },
                         parseMode := Markdown }],
           arrays := [[10, 20, 30]] } : Memory Nat String) 0 = some (res, mem1) ∧
      (∃ t1, mem1.adapterAt 0 = some t1 ∧
        t1.chatIDs = some [10, 20] ∧ t1.parseMode = Markdown) ∧
      res.sent.map MessageConfig.ChatID = [10, 20] := by
  obtain ⟨res, mem1, h1, h2, _, h5, _⟩ := C19_Send_keeps_adapter
    ({ records := [{ client := exampleClient, chatIDs := some { array := 0, len := 2 },
                     parseMode := Markdown }],
       arrays := [[10, 20, 30]] } : Memory Nat String) 0
    { client := exampleClient, chatIDs := some [10, 20], parseMode := Markdown } rfl
    exampleBackground "Subject" "Body" 0
  exact ⟨res, mem1, h1, h2, by rw [h5]; rfl⟩

end telegram
